import Mathlib

/-!
# use_lz4.c : the LZ4 feature probe

A shallow embedding of `src/use_lz4.c`.  The translation unit is one `main`:

    int good = (LZ4_VERSION_MAJOR > 1) ||
        ((LZ4_VERSION_MAJOR == 1) && (LZ4_VERSION_MINOR >= 7));
    printf("%i.%i\n", LZ4_VERSION_MAJOR, LZ4_VERSION_MINOR);

    size_t max_size = LZ4_compressBound(512);
    printf("%i\n", max_size);

The header `lz4.h` belongs to the library, so the two version macros and the
function `LZ4_compressBound` are parameters of the embedding.  `printf` is the
C library's; the part of it the program uses (ordinary characters and the
`%i` directive) is modelled after the C standard.  Characters are `Char`, a
stream is a `List Char`, C integers are `Int`/`Nat` with the reductions modulo
`2^w` written out.
-/

set_option linter.unusedVariables false

namespace UseLz4

/-! ## C integer arithmetic used by `main` -/

/-- Width of `int` in bits. -/
def INT_BITS : Nat := 32

/-- Width of `size_t` in bits (LP64). -/
def SIZE_BITS : Nat := 64

/-- The C relational operator `a > b`: an `int` that is 1 or 0. -/
def c_gt (a b : Int) : Int := if a > b then 1 else 0

/-- The C equality operator `a == b`: an `int` that is 1 or 0. -/
def c_eq (a b : Int) : Int := if a = b then 1 else 0

/-- The C relational operator `a >= b`: an `int` that is 1 or 0. -/
def c_ge (a b : Int) : Int := if a ≥ b then 1 else 0

/-- The C operator `a && b` on operands without side effects. -/
def c_land (a b : Int) : Int := if a ≠ 0 then (if b ≠ 0 then 1 else 0) else 0

/-- The C operator `a || b` on operands without side effects. -/
def c_lor (a b : Int) : Int := if a ≠ 0 then 1 else (if b ≠ 0 then 1 else 0)

/-- Conversion of an integer value to `size_t`: reduction modulo `2^SIZE_BITS`. -/
def to_size_t (v : Int) : Nat := (v % (2 ^ SIZE_BITS : Int)).toNat

/-- The `int` that `va_arg(ap, int)` reads from an argument slot holding the
unsigned value `n`: the low `INT_BITS` bits, in two's complement. -/
def int_of_low_bits (n : Nat) : Int :=
  let w := n % 2 ^ INT_BITS
  if w < 2 ^ (INT_BITS - 1) then (w : Int) else (w : Int) - (2 ^ INT_BITS : Int)

/-! ## The fragment of `printf` the program uses -/

/-- An argument of a variadic call, with the type it was passed at. -/
inductive CArg where
  | int (v : Int)
  | size_t (n : Nat)
deriving Repr, DecidableEq

/-- The value the `%i` conversion fetches for an argument: an `int` argument
is read as it is, a `size_t` argument is read through its low `int` bits.
The C standard leaves the second case undefined; this is what the LP64 and
ILP32 calling conventions do. -/
def va_arg_int : CArg → Int
  | .int v => v
  | .size_t n => int_of_low_bits n

/-- The character of the decimal digit `d`. -/
def digitChar (d : Nat) : Char := Char.ofNat (48 + d)

/-- Decimal digits of `n`, most significant first; `fuel` bounds the number
of digits. -/
def natDigitsAux : Nat → Nat → List Char
  | 0, _ => []
  | fuel + 1, n =>
    if n < 10 then [digitChar n]
    else natDigitsAux fuel (n / 10) ++ [digitChar (n % 10)]

/-- Decimal digits of `n`, without leading zeros (`0` is "0"). -/
def natDigits (n : Nat) : List Char := natDigitsAux (n + 1) n

/-- The `%i` conversion of an `int` value: signed decimal, a `-` for a
negative value and no sign otherwise. -/
def fmt_i (v : Int) : List Char :=
  if v < 0 then '-' :: natDigits v.natAbs else natDigits v.natAbs

/-- Output of `printf(fmt, args...)` for a format made of ordinary characters
and `%i` directives.  A `%i` with no argument left writes nothing. -/
def printf : List Char → List CArg → List Char
  | [], _ => []
  | '%' :: 'i' :: fmt, a :: args => fmt_i (va_arg_int a) ++ printf fmt args
  | '%' :: 'i' :: fmt, [] => printf fmt []
  | c :: fmt, args => c :: printf fmt args

/-! ## `main` -/

/-- What a run of the program shows to its environment. -/
structure Result where
  stdout : List Char
  status : Int
deriving Repr, DecidableEq

/-- The initialiser of `good`. -/
def good_expr (LZ4_VERSION_MAJOR LZ4_VERSION_MINOR : Int) : Int :=
  c_lor (c_gt LZ4_VERSION_MAJOR 1)
    (c_land (c_eq LZ4_VERSION_MAJOR 1) (c_ge LZ4_VERSION_MINOR 7))

/-- The statements of `main` that follow the declaration of `good`, run with
`good` holding the given value.  Control reaches the closing brace of `main`,
which returns 0 to the host environment. -/
def main_after_good (good : Int) (LZ4_VERSION_MAJOR LZ4_VERSION_MINOR : Int)
    (LZ4_compressBound : Int → Int) : Result :=
  let out1 := printf "%i.%i\n".toList [.int LZ4_VERSION_MAJOR, .int LZ4_VERSION_MINOR]
  let max_size : Nat := to_size_t (LZ4_compressBound 512)
  let out2 := printf "%i\n".toList [.size_t max_size]
  { stdout := out1 ++ out2, status := 0 }

/-- The program's `main`. -/
def main (LZ4_VERSION_MAJOR LZ4_VERSION_MINOR : Int) (LZ4_compressBound : Int → Int) :
    Result :=
  let good : Int := good_expr LZ4_VERSION_MAJOR LZ4_VERSION_MINOR
  main_after_good good LZ4_VERSION_MAJOR LZ4_VERSION_MINOR LZ4_compressBound

/-! ## Reading the output back

These definitions follow the words of the specification: what a line of
standard output is, and what the pattern
`<non-negative integer>.<non-negative integer>` accepts. -/

/-- Splits a stream at its newlines: the newline-terminated lines in order,
and the characters after the last newline.  `cur` is the line being read. -/
def splitLinesAux (cur : List Char) : List Char → List (List Char) × List Char
  | [] => ([], cur)
  | c :: cs =>
    if c = '\n' then (cur :: (splitLinesAux [] cs).1, (splitLinesAux [] cs).2)
    else splitLinesAux (cur ++ [c]) cs

/-- The newline-terminated lines of a stream and its unterminated rest. -/
def splitLines (out : List Char) : List (List Char) × List Char := splitLinesAux [] out

/-- The first line of a stream: its characters before the first newline. -/
def firstLine (out : List Char) : List Char := out.takeWhile (fun c => c ≠ '\n')

/-- Value of a decimal digit character. -/
def digitValue (c : Char) : Nat := c.toNat - 48

/-- Reads a non-negative integer: one or more decimal digits and nothing else. -/
def parseDecimal (cs : List Char) : Option Nat :=
  if cs ≠ [] ∧ cs.all Char.isDigit = true then
    some (cs.foldl (fun acc c => 10 * acc + digitValue c) 0)
  else none

/-- Reads a line of the form `<non-negative integer>.<non-negative integer>`:
the text before the first `.` and the text after it are both read by
`parseDecimal`, so the line holds digits and exactly one `.`. -/
def parseVersionLine (line : List Char) : Option (Nat × Nat) :=
  match line.dropWhile (fun c => c ≠ '.') with
  | '.' :: rest =>
    match parseDecimal (line.takeWhile (fun c => c ≠ '.')), parseDecimal rest with
    | some a, some b => some (a, b)
    | _, _ => none
  | _ => none

/-- The observable result the specification describes, as a function of the
two version integers and the value the bound function returned for 512. -/
def expected_result (major minor bound_value : Int) : Result :=
  { stdout := fmt_i major ++ '.' :: fmt_i minor ++ '\n' ::
      (fmt_i (va_arg_int (.size_t (to_size_t bound_value))) ++ ['\n']),
    status := 0 }


/-! ## Lemmas on the decimal conversion -/

theorem digitChar_isDigit (d : Nat) (h : d < 10) : (digitChar d).isDigit = true := by
  interval_cases d <;> decide

theorem digitValue_digitChar (d : Nat) (h : d < 10) : digitValue (digitChar d) = d := by
  interval_cases d <;> decide

theorem natDigitsAux_ne_nil (fuel n : Nat) (h : n < fuel) : natDigitsAux fuel n ≠ [] := by
  cases fuel with
  | zero => omega
  | succ f =>
    unfold natDigitsAux
    split <;> simp

theorem natDigitsAux_isDigit (fuel n : Nat) :
    ∀ c ∈ natDigitsAux fuel n, c.isDigit = true := by
  induction fuel generalizing n with
  | zero => intro c hc; simp [natDigitsAux] at hc
  | succ f ih =>
    intro c hc
    unfold natDigitsAux at hc
    split at hc
    · rename_i hlt
      simp at hc
      subst hc
      exact digitChar_isDigit n hlt
    · simp at hc
      rcases hc with hc | hc
      · exact ih _ c hc
      · subst hc
        exact digitChar_isDigit _ (Nat.mod_lt _ (by decide))

theorem natDigitsAux_value (fuel n : Nat) (h : n < fuel) :
    (natDigitsAux fuel n).foldl (fun acc c => 10 * acc + digitValue c) 0 = n := by
  induction fuel generalizing n with
  | zero => omega
  | succ f ih =>
    unfold natDigitsAux
    split
    · rename_i hlt
      simp [digitValue_digitChar n hlt]
    · rw [List.foldl_append, ih (n / 10) (by omega)]
      simp [digitValue_digitChar (n % 10) (Nat.mod_lt _ (by decide))]
      omega

theorem natDigits_ne_nil (n : Nat) : natDigits n ≠ [] :=
  natDigitsAux_ne_nil (n + 1) n (Nat.lt_succ_self n)

theorem natDigits_isDigit (n : Nat) : ∀ c ∈ natDigits n, c.isDigit = true :=
  natDigitsAux_isDigit (n + 1) n

theorem natDigits_value (n : Nat) :
    (natDigits n).foldl (fun acc c => 10 * acc + digitValue c) 0 = n :=
  natDigitsAux_value (n + 1) n (Nat.lt_succ_self n)

theorem parseDecimal_natDigits (n : Nat) : parseDecimal (natDigits n) = some n := by
  unfold parseDecimal
  rw [if_pos]
  · rw [natDigits_value]
  · exact ⟨natDigits_ne_nil n, List.all_eq_true.mpr (natDigits_isDigit n)⟩

theorem fmt_i_chars (v : Int) : ∀ c ∈ fmt_i v, c = '-' ∨ c.isDigit = true := by
  intro c hc
  unfold fmt_i at hc
  split at hc
  · simp at hc
    rcases hc with hc | hc
    · exact Or.inl hc
    · exact Or.inr (natDigits_isDigit _ c hc)
  · exact Or.inr (natDigits_isDigit _ c hc)

theorem fmt_i_no_newline (v : Int) : '\n' ∉ fmt_i v := by
  intro hc
  rcases fmt_i_chars v _ hc with h | h
  · exact absurd h (by decide)
  · exact absurd h (by decide)

theorem fmt_i_of_nonneg (v : Int) (h : 0 ≤ v) : fmt_i v = natDigits v.toNat := by
  unfold fmt_i
  rw [if_neg (by omega)]
  congr 1
  omega

/-! ## Lemmas on `printf`, lines and the argument fetch -/

theorem printf_version (a b : Int) :
    printf "%i.%i\n".toList [.int a, .int b] = fmt_i a ++ '.' :: (fmt_i b ++ ['\n']) := by
  simp [printf, va_arg_int]

theorem printf_bound (n : Nat) :
    printf "%i\n".toList [.size_t n] = fmt_i (int_of_low_bits n) ++ ['\n'] := by
  simp [printf, va_arg_int]

theorem main_stdout (major minor : Int) (bound : Int → Int) :
    (main major minor bound).stdout =
      (fmt_i major ++ '.' :: fmt_i minor) ++ '\n' ::
        (fmt_i (int_of_low_bits (to_size_t (bound 512))) ++ '\n' :: []) := by
  simp [main, main_after_good, printf, va_arg_int]

theorem splitLinesAux_line (cur l rest : List Char) (h : '\n' ∉ l) :
    splitLinesAux cur (l ++ '\n' :: rest) =
      ((cur ++ l) :: (splitLinesAux [] rest).1, (splitLinesAux [] rest).2) := by
  induction l generalizing cur with
  | nil => simp [splitLinesAux]
  | cons c cs ih =>
    have hc : c ≠ '\n' := fun e => h (by simp [e])
    have hcs : '\n' ∉ cs := fun e => h (by simp [e])
    simp [splitLinesAux, hc, ih _ hcs]

theorem takeWhile_ne_append (x : Char) (l rest : List Char) (h : x ∉ l) :
    (l ++ x :: rest).takeWhile (fun c => c ≠ x) = l := by
  induction l with
  | nil => simp [List.takeWhile]
  | cons c cs ih =>
    have hc : c ≠ x := fun e => h (by simp [e])
    have hcs : x ∉ cs := fun e => h (by simp [e])
    simpa [List.takeWhile, hc] using ih hcs

theorem dropWhile_ne_append (x : Char) (l rest : List Char) (h : x ∉ l) :
    (l ++ x :: rest).dropWhile (fun c => c ≠ x) = x :: rest := by
  induction l with
  | nil => simp [List.dropWhile]
  | cons c cs ih =>
    have hc : c ≠ x := fun e => h (by simp [e])
    have hcs : x ∉ cs := fun e => h (by simp [e])
    simpa [List.dropWhile, hc] using ih hcs

theorem natDigits_no_dot (n : Nat) : '.' ∉ natDigits n := fun hc =>
  absurd (natDigits_isDigit n _ hc) (by decide)

theorem parseVersionLine_digits (a b : Nat) :
    parseVersionLine (natDigits a ++ '.' :: natDigits b) = some (a, b) := by
  unfold parseVersionLine
  rw [dropWhile_ne_append _ _ _ (natDigits_no_dot a),
    takeWhile_ne_append _ _ _ (natDigits_no_dot a)]
  simp [parseDecimal_natDigits]

/-- An `int` value stored in a `size_t` and fetched back by `%i` is unchanged. -/
theorem int_of_low_bits_to_size_t (v : Int)
    (lo : -(2 ^ (INT_BITS - 1) : Int) ≤ v) (hi : v < (2 ^ (INT_BITS - 1) : Int)) :
    int_of_low_bits (to_size_t v) = v := by
  unfold int_of_low_bits to_size_t
  simp only [INT_BITS, SIZE_BITS] at *
  norm_num at *
  have h1 : (0 : Int) ≤ v % 18446744073709551616 := Int.emod_nonneg _ (by norm_num)
  have h2 : v % 18446744073709551616 < 18446744073709551616 := Int.emod_lt_of_pos _ (by norm_num)
  split <;> omega

theorem fmt_i_no_dot (v : Int) : '.' ∉ fmt_i v := by
  intro hc
  rcases fmt_i_chars v _ hc with h | h
  · exact absurd h (by decide)
  · exact absurd h (by decide)

theorem splitLines_two (l1 l2 : List Char) (h1 : '\n' ∉ l1) (h2 : '\n' ∉ l2) :
    splitLines (l1 ++ '\n' :: (l2 ++ '\n' :: [])) = ([l1, l2], []) := by
  unfold splitLines
  rw [splitLinesAux_line [] l1 _ h1, splitLinesAux_line [] l2 _ h2]
  simp [splitLinesAux]

theorem firstLine_append (l rest : List Char) (h : '\n' ∉ l) :
    firstLine (l ++ '\n' :: rest) = l :=
  takeWhile_ne_append '\n' l rest h

theorem main_eq_expected (major minor : Int) (bound : Int → Int) :
    main major minor bound = expected_result major minor (bound 512) := by
  simp [main, main_after_good, expected_result, printf, va_arg_int]

theorem version_line_no_newline (major minor : Int) :
    '\n' ∉ fmt_i major ++ '.' :: fmt_i minor := by
  intro h
  rcases List.mem_append.mp h with h | h
  · exact fmt_i_no_newline _ h
  · rcases List.mem_cons.mp h with h | h
    · exact absurd h (by decide)
    · exact fmt_i_no_newline _ h

/-! ## The claims -/

/-- C1: for every version pair and every bound function, `main` writes
exactly two newline-terminated lines to standard output and nothing after
them.  The first line is the `%i` rendering of major, one `.` (the only one
in the line), and the `%i` rendering of minor; the second line is the `%i`
rendering of the argument holding the value the bound function returned for
512, which is the signed decimal of that value whenever the value is an
`int`. -/
theorem C1_main_writes_two_lines (major minor : Int) (bound : Int → Int) :
    splitLines (main major minor bound).stdout =
      ([fmt_i major ++ '.' :: fmt_i minor,
        fmt_i (va_arg_int (.size_t (to_size_t (bound 512))))], []) ∧
    (main major minor bound).stdout =
      fmt_i major ++ '.' :: fmt_i minor ++ '\n' ::
        (fmt_i (va_arg_int (.size_t (to_size_t (bound 512)))) ++ ['\n']) ∧
    (fmt_i major ++ '.' :: fmt_i minor).count '.' = 1 ∧
    (-(2 ^ (INT_BITS - 1) : Int) ≤ bound 512 → bound 512 < (2 ^ (INT_BITS - 1) : Int) →
      fmt_i (va_arg_int (.size_t (to_size_t (bound 512)))) = fmt_i (bound 512)) := by
  refine ⟨?_, ?_, ?_, ?_⟩
  · rw [main_stdout]
    exact splitLines_two _ _ (version_line_no_newline major minor) (fmt_i_no_newline _)
  · rw [main_stdout]
    rfl
  · rw [List.count_append, List.count_cons_self,
      List.count_eq_zero.mpr (fmt_i_no_dot major), List.count_eq_zero.mpr (fmt_i_no_dot minor)]
  · intro lo hi
    show fmt_i (int_of_low_bits (to_size_t (bound 512))) = fmt_i (bound 512)
    rw [int_of_low_bits_to_size_t _ lo hi]

/-- C1 at version 1.9 with a bound function returning `n + 18`: the second
line is the decimal of the returned 530. -/
theorem C1_main_writes_two_lines_witness :
    splitLines (main 1 9 (fun n => n + 18)).stdout = (["1.9".toList, "530".toList], []) ∧
    fmt_i (va_arg_int (.size_t (to_size_t ((fun n : Int => n + 18) 512)))) =
      fmt_i ((fun n : Int => n + 18) 512) :=
  ⟨(C1_main_writes_two_lines 1 9 (fun n => n + 18)).1,
   (C1_main_writes_two_lines 1 9 (fun n => n + 18)).2.2.2 (by decide) (by decide)⟩

/-- C2: for every version pair and every bound function, `main` runs its two
`printf` calls, reaches its closing brace and exits with status 0; its
standard output is the output of the two calls and nothing else. -/
theorem C2_main_exit_status_zero (major minor : Int) (bound : Int → Int) :
    (main major minor bound).status = 0 ∧
    (main major minor bound).stdout =
      printf "%i.%i\n".toList [.int major, .int minor] ++
        printf "%i\n".toList [.size_t (to_size_t (bound 512))] :=
  ⟨rfl, rfl⟩

/-- C4: for non-negative major and minor, the first line `main` prints is
the digits of major, one `.`, the digits of minor: both digit runs are
non-empty and hold decimal digits only, the line has exactly one `.` and no
sign, and reading the line back gives major and minor. -/
theorem C4_first_line_pattern (major minor : Int) (bound : Int → Int)
    (hmajor : 0 ≤ major) (hminor : 0 ≤ minor) :
    firstLine (main major minor bound).stdout =
      natDigits major.toNat ++ '.' :: natDigits minor.toNat ∧
    natDigits major.toNat ≠ [] ∧ natDigits minor.toNat ≠ [] ∧
    (∀ c ∈ natDigits major.toNat, c.isDigit = true) ∧
    (∀ c ∈ natDigits minor.toNat, c.isDigit = true) ∧
    (firstLine (main major minor bound).stdout).count '.' = 1 ∧
    parseVersionLine (firstLine (main major minor bound).stdout) =
      some (major.toNat, minor.toNat) := by
  have hline : firstLine (main major minor bound).stdout =
      natDigits major.toNat ++ '.' :: natDigits minor.toNat := by
    rw [main_stdout, firstLine_append _ _ (version_line_no_newline major minor),
      fmt_i_of_nonneg major hmajor, fmt_i_of_nonneg minor hminor]
  refine ⟨hline, natDigits_ne_nil _, natDigits_ne_nil _, natDigits_isDigit _,
    natDigits_isDigit _, ?_, ?_⟩
  · rw [hline, List.count_append, List.count_cons_self,
      List.count_eq_zero.mpr (natDigits_no_dot _), List.count_eq_zero.mpr (natDigits_no_dot _)]
  · rw [hline]
    exact parseVersionLine_digits _ _

/-- C4 at version 1.9: the first line is `1.9` and reads back as (1, 9). -/
theorem C4_first_line_pattern_witness :
    firstLine (main 1 9 (fun _ => 530)).stdout = "1.9".toList ∧
    parseVersionLine (firstLine (main 1 9 (fun _ => 530)).stdout) = some (1, 9) :=
  ⟨(C4_first_line_pattern 1 9 (fun _ => 530) (by decide) (by decide)).1,
   (C4_first_line_pattern 1 9 (fun _ => 530) (by decide) (by decide)).2.2.2.2.2.2⟩

/-- C5: the value of `good` is discarded.  Whatever value `good` holds, the
statements after it produce the result of `main`, and that result is
`expected_result`, a function of major, minor and the bound value alone; the
versions 1.6 and 0.9, for which `good` is 0, still give both lines and exit
status 0. -/
theorem C5_good_discarded (major minor : Int) (bound : Int → Int) (g : Int) :
    main_after_good g major minor bound = main major minor bound ∧
    main major minor bound = expected_result major minor (bound 512) ∧
    good_expr 1 6 = 0 ∧ good_expr 0 9 = 0 ∧
    (main 1 6 bound).status = 0 ∧ (main 0 9 bound).status = 0 ∧
    splitLines (main 1 6 bound).stdout =
      (["1.6".toList, fmt_i (va_arg_int (.size_t (to_size_t (bound 512))))], []) ∧
    splitLines (main 0 9 bound).stdout =
      (["0.9".toList, fmt_i (va_arg_int (.size_t (to_size_t (bound 512))))], []) := by
  refine ⟨rfl, main_eq_expected major minor bound, by decide, by decide, rfl, rfl, ?_, ?_⟩
  · rw [main_stdout]
    exact splitLines_two _ _ (version_line_no_newline 1 6) (fmt_i_no_newline _)
  · rw [main_stdout]
    exact splitLines_two _ _ (version_line_no_newline 0 9) (fmt_i_no_newline _)

/-- C6: `good` is 1 exactly when (major, minor) is lexicographically at least
(1, 7), and 0 exactly otherwise; it is never another value, and it is
monotone in the lexicographic order on versions. -/
theorem C6_good_is_version_check (major minor : Int) :
    (good_expr major minor = 1 ↔ (major > 1 ∨ (major = 1 ∧ minor ≥ 7))) ∧
    (good_expr major minor = 0 ↔ ¬ (major > 1 ∨ (major = 1 ∧ minor ≥ 7))) ∧
    (good_expr major minor = 0 ∨ good_expr major minor = 1) ∧
    (∀ major2 minor2 : Int, (major < major2 ∨ (major = major2 ∧ minor ≤ minor2)) →
      good_expr major minor ≤ good_expr major2 minor2) := by
  refine ⟨?_, ?_, ?_, ?_⟩
  · unfold good_expr c_lor c_land c_gt c_eq c_ge
    split_ifs <;> omega
  · unfold good_expr c_lor c_land c_gt c_eq c_ge
    split_ifs <;> omega
  · unfold good_expr c_lor c_land c_gt c_eq c_ge
    split_ifs <;> omega
  · intro major2 minor2 h
    unfold good_expr c_lor c_land c_gt c_eq c_ge
    split_ifs <;> omega

/-- C6 at 1.6 and 1.7: `good` is 0 for 1.6, 1 for 1.7, and 1.6 is below 1.7. -/
theorem C6_good_is_version_check_witness :
    good_expr 1 6 = 0 ∧ good_expr 1 7 = 1 ∧ good_expr 1 6 ≤ good_expr 1 7 :=
  ⟨(C6_good_is_version_check 1 6).2.1.mpr (by decide),
   (C6_good_is_version_check 1 7).1.mpr (by decide),
   (C6_good_is_version_check 1 6).2.2.2 1 7 (by decide)⟩

/-- C7: `main` uses the bound function at 512 only: two bound functions that
agree at 512 give the same standard output and exit status. -/
theorem C7_bound_only_at_512 (major minor : Int) (bound1 bound2 : Int → Int)
    (h : bound1 512 = bound2 512) :
    main major minor bound1 = main major minor bound2 := by
  rw [main_eq_expected, main_eq_expected, h]

/-- C7 for the functions `n + n / 255 + 16` and the constant 530, which
agree at 512 and differ at 0. -/
theorem C7_bound_only_at_512_witness :
    (fun n : Int => n + n / 255 + 16) 0 ≠ (fun _ : Int => (530 : Int)) 0 ∧
    main 1 9 (fun n => n + n / 255 + 16) = main 1 9 (fun _ => 530) :=
  ⟨by decide, C7_bound_only_at_512 1 9 (fun n => n + n / 255 + 16) (fun _ => 530) (by decide)⟩

end UseLz4
